import Mathlib

/-!
# Verification of socket.js (WebSocket-based messaging library)

Shallow embedding of the frame codec, handshake token computation, and the
two session state machines of the repository (src/server/socket.js and
src/client/socket.js), together with theorems settling the frozen claims.

Conventions:
* A Node `Buffer` is modelled as `List Nat`, each entry a byte value 0-255.
* Machine arithmetic from the source environment is made explicit:
  `readUInt8(i) >> 7` on a byte value equals division by 128, `& 15` is
  `% 16`, `& 127` is `% 128`; the JS 32-bit shift/coercion semantics of the
  64-bit length read is modelled by `jsToInt32`.
* Fallible operations return `Except`/`Option`; a runtime error that kills
  the process (RangeError from Buffer construction) is modelled by the
  `crashed` flag, which permanently stops processing.
-/

/-- JSON values, the payloads carried by the envelope protocol.  Every value
of this type is JSON-serializable, so the source's `jsonConvertible` check
always passes on them. -/
inductive Json where
  | null
  | bool (b : Bool)
  | num (n : Int)
  | str (s : String)
  | arr (elems : List Json)
  | obj (fields : List (String × Json))

/-- The envelope shapes exchanged once frames are decoded
(`connect` / `reconnect` / `message` / `close`). -/
inductive Envelope where
  | connect
  | reconnect (rd : Json)
  | message (mt : String) (m : Json)
  | close

/-- Result of `JSON.parse` on a complete message payload, as consumed by the
server's envelope dispatch (src/server/socket.js lines 176-200): a parse
failure is `none`; a parsed object is classified by its `type` field, with
`other` covering every JSON value whose type matches none of the three
dispatched tags. -/
inductive Env where
  | connect
  | reconnect (rd : Json)
  | message (mt : String) (m : Json)
  | other

/-- `buf.readUInt8 i`; reads past the end yield 0 (never exercised: every
read in the source is guarded by a length check). -/
def byteAt (buf : List Nat) (i : Nat) : Nat := buf.getD i 0

/-- `buf.readUInt16BE i`. -/
def be16at (buf : List Nat) (i : Nat) : Nat := byteAt buf i * 256 + byteAt buf (i + 1)

/-- `buf.readUInt32BE i`. -/
def be32at (buf : List Nat) (i : Nat) : Nat :=
  byteAt buf i * 16777216 + byteAt buf (i + 1) * 65536 + byteAt buf (i + 2) * 256 + byteAt buf (i + 3)

/-- The unsigned big-endian integer value of the 8 bytes at offset `i`:
what a correct 64-bit length read would compute. -/
def be64at (buf : List Nat) (i : Nat) : Nat := be32at buf i * 4294967296 + be32at buf (i + 4)

/-- JavaScript `ToInt32`: the operand of `<<` is coerced to a signed 32-bit
integer. -/
def jsToInt32 (x : Nat) : Int :=
  if x % 4294967296 < 2147483648 then (x % 4294967296 : Int)
  else (x % 4294967296 : Int) - 4294967296

/-- src/server/socket.js line 142: the payload length computed when the
length code is 127, `(dataReceived.readUInt32BE(2) << 32) + dataReceived.readUInt32BE(6)`.
In JavaScript a shift count of 32 is taken mod 32, so `x << 32` is
`ToInt32(x)`, and the expression adds the two 32-bit reads instead of
combining them as a 64-bit value. -/
def payloadLength127 (buf : List Nat) : Int :=
  jsToInt32 (be32at buf 2) + (be32at buf 6 : Int)

/-- The masking transform (src/server/socket.js lines 162-166): byte `i` of
the payload is XORed with `key[i % 4]`.  `i` is the index of the first
payload byte still to transform. -/
def maskFrom (key : List Nat) : Nat → List Nat → List Nat
  | _, [] => []
  | i, b :: rest => (b ^^^ byteAt key (i % 4)) :: maskFrom key (i + 1) rest

/-- Outcome of attempting to read one frame from the front of the buffer. -/
inductive FrameResult where
  | needMore
  | closeConn
  | invalid
  | frame (fin : Bool) (opcode : Nat) (payload : List Nat) (consumed : Nat)

/-- Continuation of the frame parse once the payload length `len` and the
header length so far `n0` are known (src/server/socket.js lines 146-170):
read the masking key if the mask bit is set, check the whole payload is
present, unmask, and hand back the payload and the number of bytes this
frame occupies.  `invalid` is the path the source reaches with a negative
`payloadLength` (possible only through the line-142 32-bit coercion): there
`Buffer.concat` is invoked with a total length smaller than its arguments,
which raises a RangeError in the source environment, killing processing. -/
def parseRest (buf : List Nat) (fin : Bool) (opcode : Nat) (mask : Bool)
    (len : Int) (n0 : Nat) : FrameResult :=
  if mask ∧ buf.length < n0 + 4 then .needMore
  else if (buf.length : Int) < ((if mask then n0 + 4 else n0 : Nat) : Int) + len then .needMore
  else if len < 0 then .invalid
  else
    .frame fin opcode
      (if mask then maskFrom ((buf.drop n0).take 4) 0 ((buf.drop (n0 + 4)).take len.toNat)
       else (buf.drop n0).take len.toNat)
      ((if mask then n0 + 4 else n0) + len.toNat)

/-- One iteration of the frame-decoding loop (src/server/socket.js lines
104-159) up to the point where the payload of the frame at the front of the
buffer is extracted.  Byte arithmetic: `readUInt8(0) >> 7 === 1` on a byte
is `/ 128 == 1`, `& 15` is `% 16`, `& 127` is `% 128`; the FIN bit is
`byteAt buf 0 / 128 == 1`, the mask bit `byteAt buf 1 / 128 == 1`. -/
def parseFrame (buf : List Nat) : FrameResult :=
  if buf.length < 1 then .needMore
  else if byteAt buf 0 % 16 = 8 then .closeConn
  else if buf.length < 2 then .needMore
  else if byteAt buf 1 % 128 < 126 then
    parseRest buf (byteAt buf 0 / 128 == 1) (byteAt buf 0 % 16)
      (byteAt buf 1 / 128 == 1) ((byteAt buf 1 % 128 : Nat) : Int) 2
  else if byteAt buf 1 % 128 = 126 then
    if buf.length < 4 then .needMore
    else parseRest buf (byteAt buf 0 / 128 == 1) (byteAt buf 0 % 16)
      (byteAt buf 1 / 128 == 1) ((be16at buf 2 : Nat) : Int) 4
  else
    if buf.length < 10 then .needMore
    else parseRest buf (byteAt buf 0 / 128 == 1) (byteAt buf 0 % 16)
      (byteAt buf 1 / 128 == 1) (payloadLength127 buf) 10

/-- The per-connection server state (src/server/socket.js lines 36-41)
together with transcripts of its observable effects:
`startCalls` records the `reconnectData` value passed to the application
handler at each `start` invocation (`Json.null` for a plain connect),
`delivered` the message dispatches to registered message handlers,
`sentEnvelopes` the envelopes written to the socket, and `closeCbCalls` the
number of invocations of the registered close callback.  `crashed` records
that processing died with a runtime error (negative computed payload
length); nothing runs afterwards. -/
structure Conn where
  closed : Bool
  crashed : Bool
  started : Bool
  closeHandlerSet : Bool
  messageHandlers : List String
  dataReceived : List Nat
  payloadReceived : List Nat
  startCalls : List Json
  delivered : List (String × Json)
  sentEnvelopes : List Envelope
  closeCbCalls : Nat

/-- Fresh connection state right after the handshake
(src/server/socket.js lines 36-41). -/
def initConn : Conn :=
  { closed := false, crashed := false, started := false, closeHandlerSet := false
    messageHandlers := [], dataReceived := [], payloadReceived := []
    startCalls := [], delivered := [], sentEnvelopes := [], closeCbCalls := 0 }

/-- `close(needToCloseSocket)` (src/server/socket.js lines 75-93): when not
already closed, optionally send a `close` envelope (via `sendMessage`, whose
`!closed` guard passes here), mark closed, release the receive buffer, and
notify the application through the registered close handler, if any. -/
def srvClose (needToCloseSocket : Bool) (s : Conn) : Conn :=
  if s.closed then s
  else
    { s with
      sentEnvelopes := s.sentEnvelopes ++ if needToCloseSocket then [Envelope.close] else []
      closed := true
      dataReceived := []
      closeCbCalls := s.closeCbCalls + if s.closeHandlerSet then 1 else 0 }

/-- Envelope dispatch on a completely parsed message
(src/server/socket.js lines 183-200): the first `connect`/`reconnect`
flips `started` and invokes the application handler via `start` (recorded
in `startCalls`, `reconnectData` being null for `connect`); later ones are
ignored; `message` envelopes are handed to the registered handler for their
message type, if any; anything else is ignored. -/
def dispatchEnv (s : Conn) : Env → Conn
  | .connect =>
    if s.started then s
    else { s with started := true, startCalls := s.startCalls ++ [Json.null] }
  | .reconnect rd =>
    if s.started then s
    else { s with started := true, startCalls := s.startCalls ++ [rd] }
  | .message mt m =>
    if s.messageHandlers.contains mt then { s with delivered := s.delivered ++ [(mt, m)] }
    else s
  | .other => s

/-- The `while (true)` frame-eating loop of the data handler
(src/server/socket.js lines 104-211), parametrized by the result `pe` of
`JSON.parse` on each completed payload.  The returned list collects, in
order, every accumulated payload handed to the envelope layer (a FIN frame
with opcode 1).  `fuel` bounds the number of iterations; `runLoop` supplies
enough fuel for the loop to run to quiescence, since every complete frame
consumes at least two buffered bytes. -/
def runLoopF (pe : List Nat → Option Env) : Nat → Conn → Conn × List (List Nat)
  | 0, s => (s, [])
  | fuel + 1, s =>
    match parseFrame s.dataReceived with
    | .needMore => (s, [])
    | .closeConn => (srvClose true s, [])
    | .invalid => ({ s with crashed := true, dataReceived := [] }, [])
    | .frame fin opcode payload c =>
      let acc := s.payloadReceived ++ payload
      let rest := s.dataReceived.drop c
      if fin then
        if opcode = 1 then
          match pe acc with
          | none => (srvClose true { s with payloadReceived := acc, dataReceived := rest }, [acc])
          | some e =>
            let r := runLoopF pe fuel (dispatchEnv { s with payloadReceived := [], dataReceived := rest } e)
            (r.1, acc :: r.2)
        else
          runLoopF pe fuel { s with payloadReceived := [], dataReceived := rest }
      else
        runLoopF pe fuel { s with payloadReceived := acc, dataReceived := rest }

/-- The frame-eating loop run to quiescence on the current buffer. -/
def runLoop (pe : List Nat → Option Env) (s : Conn) : Conn × List (List Nat) :=
  runLoopF pe s.dataReceived.length s

/-- The `socket.on('data')` handler (src/server/socket.js lines 95-212):
ignore data when closed (or after a crash, which killed the process),
otherwise append the chunk to the unprocessed buffer and eat as many frames
as possible. -/
def runData (pe : List Nat → Option Env) (s : Conn) (data : List Nat) : Conn × List (List Nat) :=
  if s.closed || s.crashed then (s, [])
  else runLoop pe { s with dataReceived := s.dataReceived ++ data }

/-- Feeding a sequence of socket chunks one at a time, concatenating the
decoded-payload transcripts. -/
def runChunks (pe : List Nat → Option Env) : Conn → List (List Nat) → Conn × List (List Nat)
  | s, [] => (s, [])
  | s, c :: cs =>
    let r1 := runData pe s c
    let r2 := runChunks pe r1.1 cs
    (r2.1, r1.2 ++ r2.2)

/-- Big-endian 16-bit byte encoding (`writeUInt16BE`). -/
def be16 (n : Nat) : List Nat := [n / 256 % 256, n % 256]

/-- Big-endian 32-bit byte encoding. -/
def be32 (n : Nat) : List Nat :=
  [n / 16777216 % 256, n / 65536 % 256, n / 256 % 256, n % 256]

/-- Big-endian 64-bit byte encoding. -/
def be64 (n : Nat) : List Nat := be32 (n / 4294967296) ++ be32 n

/-- The byte stream `sendMessage` writes for one outgoing message whose JSON
serialization is `data` (src/server/socket.js lines 44-71): the header byte
129 (FIN, opcode text), the variable-width payload length, then the payload,
never masked.  `none` models the third branch (`data.length >= 65536`): the
source there calls `payloadLengthBuffer.writeUInt16BE(data.length, 5)`,
and `writeUInt16BE` rejects every value above 65535 with a bounds error, so
that branch raises instead of producing a frame (and even absent the bounds
check it would place the length at bit positions 16-31 of the 64-bit field,
leaving bytes 3, 4, 7 and 8 of the length buffer unwritten). -/
def sendMessageBytes (data : List Nat) : Option (List Nat) :=
  if data.length < 126 then some ([129] ++ [data.length] ++ data)
  else if data.length < 65536 then some ([129] ++ [126] ++ be16 data.length ++ data)
  else none

/-- Modelled from the spec: the frame encoder for a single frame of the wire
format (spec section 4.1 and the header table of section 6).  The
browser-side (masking) encoder is the platform WebSocket implementation and
is not part of src/; this definition follows the spec's words: header byte 1
carries FIN and the opcode, header byte 2 the mask bit and the three-tier
length code (0-125 direct; 126 plus 16-bit big-endian; 127 plus 64-bit
big-endian), then the 4-byte masking key iff masked, then the payload, each
byte XORed with `key[i % 4]` iff masked. -/
def encodeFrame (fin : Bool) (opcode : Nat) (masked : Bool) (key : List Nat)
    (payload : List Nat) : List Nat :=
  let lcode := if payload.length < 126 then payload.length
    else if payload.length < 65536 then 126 else 127
  let extLen := if payload.length < 126 then ([] : List Nat)
    else if payload.length < 65536 then be16 payload.length else be64 payload.length
  [(if fin then 128 else 0) + opcode, (if masked then 128 else 0) + lcode]
    ++ extLen ++ (if masked then key else [])
    ++ (if masked then maskFrom key 0 payload else payload)

/-- The client session state (src/client/socket.js lines 39-46) with
transcripts: `sent` records the envelopes transmitted on the wire via
`websocket.send`, `closeCbCalls` / `disconnectCbCalls` count invocations of
the registered callbacks.  `readyState` is the current transport's
WebSocket ready state (0 CONNECTING, 1 OPEN, 2 CLOSING, 3 CLOSED). -/
structure ClientState where
  permanentlyClosed : Bool
  temporarilyDisconnected : Bool
  readyState : Nat
  outgoingQueue : List Envelope
  sent : List Envelope
  messageHandlers : List String
  disconnectHandlerSet : Bool
  reconnectHandlerSet : Bool
  closeHandlerSet : Bool
  closeCbCalls : Nat
  disconnectCbCalls : Nat

/-- `flushOutgoingQueue` (src/client/socket.js lines 135-152): while
permanently closed or temporarily disconnected the queue is discarded
without transmitting; otherwise, if the socket is OPEN, every queued
envelope is sent in order and the queue emptied; if the socket is not yet
OPEN the queue is left untouched. -/
def clientFlush (s : ClientState) : ClientState :=
  if s.permanentlyClosed || s.temporarilyDisconnected then { s with outgoingQueue := [] }
  else if s.readyState = 1 then
    { s with sent := s.sent ++ s.outgoingQueue, outgoingQueue := [] }
  else s

/-- `send(type, message)` (src/client/socket.js lines 184-205).  The type
and serializability checks pass by construction (`mt` is a string, every
`Json` value is serializable); then: throw if permanently closed; if not
temporarily disconnected, enqueue the `message` envelope and flush;
otherwise do nothing (the message is dropped). -/
def clientSend (s : ClientState) (mt : String) (m : Json) : Except String ClientState :=
  if s.permanentlyClosed then
    .error "Attempted to transmit after the connection has been closed"
  else if s.temporarilyDisconnected then .ok s
  else .ok (clientFlush { s with outgoingQueue := s.outgoingQueue ++ [Envelope.message mt m] })

/-- `onSocketOpen` (src/client/socket.js lines 60-91), firing when the
current transport reaches the OPEN ready state.  If the session was
temporarily disconnected: clear that flag, drop everything in the outgoing
queue, consult the reconnect handler for a context value (`rd` is the value
it returns, after the source's coercion of undefined to null; `Json` values
always pass the serializability check), enqueue a `reconnect` envelope, and
flush.  On a first connection, just flush. -/
def onSocketOpen (s0 : ClientState) (rd : Json) : ClientState :=
  let s := { s0 with readyState := 1 }
  if s.temporarilyDisconnected then
    let rd' := if s.reconnectHandlerSet then rd else Json.null
    clientFlush { s with temporarilyDisconnected := false
                         outgoingQueue := [Envelope.reconnect rd'] }
  else clientFlush s

/-- The internal `close` (src/client/socket.js lines 155-170): when not
already permanently closed, set the flag, close the transport unless it is
already closing or closed, and invoke the registered close callback, if
any.  A second call is a no-op. -/
def clientClose (s : ClientState) : ClientState :=
  if s.permanentlyClosed then s
  else
    { s with
      permanentlyClosed := true
      readyState := if s.readyState != 2 && s.readyState != 3 then 2 else s.readyState
      closeCbCalls := s.closeCbCalls + if s.closeHandlerSet then 1 else 0 }

/-- `receive(type, handler)` (src/client/socket.js lines 208-226): after the
argument checks (which pass here by typing), throw if permanently closed;
a null handler (`reg = false`) removes the registration for `t`, a function
handler (`reg = true`) installs it. -/
def clientReceive (s : ClientState) (t : String) (reg : Bool) : Except String ClientState :=
  if s.permanentlyClosed then
    .error "Attempted to set message handler after the connection has been closed"
  else if reg then
    .ok { s with messageHandlers :=
      if s.messageHandlers.contains t then s.messageHandlers else s.messageHandlers ++ [t] }
  else .ok { s with messageHandlers := s.messageHandlers.erase t }

/-- `disconnect(handler)` (src/client/socket.js lines 229-239): throw if
permanently closed, else install (`reg = true`) or clear (`reg = false`,
i.e. null) the disconnect handler. -/
def clientDisconnectReg (s : ClientState) (reg : Bool) : Except String ClientState :=
  if s.permanentlyClosed then
    .error "Attempted to set disconnect handler after the connection has been closed"
  else .ok { s with disconnectHandlerSet := reg }

/-- `reconnect(handler)` (src/client/socket.js lines 242-252): throw if
permanently closed, else install or clear the reconnect handler. -/
def clientReconnectReg (s : ClientState) (reg : Bool) : Except String ClientState :=
  if s.permanentlyClosed then
    .error "Attempted to set reconnect handler after the connection has been closed"
  else .ok { s with reconnectHandlerSet := reg }

/-- `close(handler)` called with a handler argument, the registration form
(src/client/socket.js lines 255-265): the handler replaces the close
callback (null clears it).  Note: unlike the other registration methods,
this path performs no `permanentlyClosed` check in the source. -/
def clientCloseReg (s : ClientState) (reg : Bool) : Except String ClientState :=
  .ok { s with closeHandlerSet := reg }

/-- The session-handle `send` exposed to the server application
(src/server/socket.js lines 225-243): after the argument checks (passing by
typing here), throw if the connection is closed, otherwise send a `message`
envelope down the wire. -/
def srvSend (s : Conn) (mt : String) (m : Json) : Except String Conn :=
  if s.closed then
    .error "Attempted to transmit after the connection has been closed"
  else .ok { s with sentEnvelopes := s.sentEnvelopes ++ [Envelope.message mt m] }

/-- Truncation to 32 bits. -/
def u32 (x : Nat) : Nat := x % 4294967296

/-- 32-bit left rotation. -/
def rotl32 (n x : Nat) : Nat := ((x <<< n) ||| (x >>> (32 - n))) % 4294967296

/-- Modelled from the spec: the SHA-1 round function (the handshake of
src/server/socket.js line 33 calls the platform `crypto` SHA-1, which is
not part of src/; spec section 4.2 names the algorithm). -/
def sha1F (t b c d : Nat) : Nat :=
  if t < 20 then (b &&& c) ||| ((4294967295 - b) &&& d)
  else if t < 40 then b ^^^ c ^^^ d
  else if t < 60 then (b &&& c) ||| (b &&& d) ||| (c &&& d)
  else b ^^^ c ^^^ d

/-- Modelled from the spec: the SHA-1 round constants. -/
def sha1K (t : Nat) : Nat :=
  if t < 20 then 1518500249
  else if t < 40 then 1859775393
  else if t < 60 then 2400959708
  else 3395469782

/-- Modelled from the spec: SHA-1 message padding: append the byte 0x80,
zeros up to 56 mod 64, then the bit length as 64-bit big-endian. -/
def sha1Pad (msg : List Nat) : List Nat :=
  msg ++ [128] ++ List.replicate ((119 - msg.length % 64) % 64) 0 ++ be64 (8 * msg.length)

/-- Group a padded message into `k` blocks of 64 bytes. -/
def toBlocksF : Nat → List Nat → List (List Nat)
  | 0, _ => []
  | k + 1, l => l.take 64 :: toBlocksF k (l.drop 64)

/-- Read `k` big-endian 32-bit words from the front of a byte list. -/
def toWordsF : Nat → List Nat → List Nat
  | 0, _ => []
  | k + 1, l =>
    (byteAt l 0 * 16777216 + byteAt l 1 * 65536 + byteAt l 2 * 256 + byteAt l 3)
      :: toWordsF k (l.drop 4)

/-- Modelled from the spec: extend the 16 schedule words by `k` more, each
the 1-rotation of the XOR of the words 3, 8, 14 and 16 places back. -/
def sha1Extend (ws : List Nat) : Nat → List Nat
  | 0 => ws
  | k + 1 =>
    sha1Extend
      (ws ++ [rotl32 1 ((ws.getD (ws.length - 3) 0) ^^^ (ws.getD (ws.length - 8) 0)
        ^^^ (ws.getD (ws.length - 14) 0) ^^^ (ws.getD (ws.length - 16) 0))]) k

/-- Modelled from the spec: the 80-round SHA-1 compression of one block. -/
def sha1Block (h : Nat × Nat × Nat × Nat × Nat) (block : List Nat) :
    Nat × Nat × Nat × Nat × Nat :=
  let w := sha1Extend (toWordsF 16 block) 64
  let r := (List.range 80).foldl
    (fun (st : Nat × Nat × Nat × Nat × Nat) t =>
      let (a, b, c, d, e) := st
      let temp := u32 (rotl32 5 a + sha1F t b c d + e + sha1K t + w.getD t 0)
      (temp, a, rotl32 30 b, c, d))
    (h.1, h.2.1, h.2.2.1, h.2.2.2.1, h.2.2.2.2)
  (u32 (h.1 + r.1), u32 (h.2.1 + r.2.1), u32 (h.2.2.1 + r.2.2.1),
    u32 (h.2.2.2.1 + r.2.2.2.1), u32 (h.2.2.2.2 + r.2.2.2.2))

/-- Modelled from the spec: SHA-1 of a byte sequence, as a 20-byte digest. -/
def sha1 (msg : List Nat) : List Nat :=
  let padded := sha1Pad msg
  let h := (toBlocksF (padded.length / 64) padded).foldl sha1Block
    (1732584193, 4023233417, 2562383102, 271733878, 3285377520)
  be32 h.1 ++ be32 h.2.1 ++ be32 h.2.2.1 ++ be32 h.2.2.2.1 ++ be32 h.2.2.2.2

/-- The standard base64 alphabet. -/
def b64char (n : Nat) : Char :=
  "ABCDEFGHIJKLMNOPQRSTUVWXYZabcdefghijklmnopqrstuvwxyz0123456789+/".data.getD n 'A'

/-- Modelled from the spec: base64 encoding with `=` padding. -/
def base64Encode : List Nat → List Char
  | [] => []
  | [a] => [b64char (a / 4), b64char (a % 4 * 16), '=', '=']
  | [a, b] => [b64char (a / 4), b64char (a % 4 * 16 + b / 16), b64char (b % 16 * 4), '=']
  | a :: b :: c :: rest =>
    b64char (a / 4) :: b64char (a % 4 * 16 + b / 16) :: b64char (b % 16 * 4 + c / 64)
      :: b64char (c % 64) :: base64Encode rest

/-- The code-unit values of a string; the handshake keys and the protocol
GUID are ASCII, where this agrees with the UTF-8 bytes Node hashes. -/
def strBytes (s : String) : List Nat := s.data.map Char.toNat

/-- The fixed protocol GUID appended to the client key
(src/server/socket.js line 33). -/
def wsGuid : String := "258EAFA5-E914-47DA-95CA-C5AB0DC85B11"

/-- The Sec-WebSocket-Accept token computed by the handshake
(src/server/socket.js line 33):
base64 of the SHA-1 digest of the client key concatenated with the GUID. -/
def acceptToken (key : String) : String :=
  String.mk (base64Encode (sha1 (strBytes (key ++ wsGuid))))


/-- Specification helper: the `reconnectData` value carried by the first
`connect`/`reconnect` envelope of a sequence, if any (`Json.null` for a
`connect`). -/
def firstStart : List Env → Option Json
  | [] => none
  | Env.connect :: _ => some Json.null
  | Env.reconnect rd :: _ => some rd
  | Env.message _ _ :: rest => firstStart rest
  | Env.other :: rest => firstStart rest

/-! ## Byte-read stability under buffer extension -/

theorem byteAt_append (buf ext : List Nat) (i : Nat) (h : i < buf.length) :
    byteAt (buf ++ ext) i = byteAt buf i :=
  List.getD_append _ _ _ _ h

theorem be16at_append (buf ext : List Nat) (i : Nat) (h : i + 2 ≤ buf.length) :
    be16at (buf ++ ext) i = be16at buf i := by
  unfold be16at
  rw [byteAt_append _ _ _ (by omega), byteAt_append _ _ _ (by omega)]

theorem be32at_append (buf ext : List Nat) (i : Nat) (h : i + 4 ≤ buf.length) :
    be32at (buf ++ ext) i = be32at buf i := by
  unfold be32at
  rw [byteAt_append _ _ _ (by omega), byteAt_append _ _ _ (by omega),
    byteAt_append _ _ _ (by omega), byteAt_append _ _ _ (by omega)]

theorem payloadLength127_append (buf ext : List Nat) (h : 10 ≤ buf.length) :
    payloadLength127 (buf ++ ext) = payloadLength127 buf := by
  unfold payloadLength127
  rw [be32at_append _ _ _ (by omega), be32at_append _ _ _ (by omega)]

theorem dropTake_append (buf ext : List Nat) (n k : Nat) (h : n + k ≤ buf.length) :
    ((buf ++ ext).drop n).take k = (buf.drop n).take k := by
  rw [List.drop_append_of_le_length (by omega),
    List.take_append_of_le_length (by simp; omega)]

/-! ## Frame parser: consumed-bytes bounds and stability under extension -/

theorem parseRest_frame (buf : List Nat) (fin : Bool) (opcode : Nat) (mask : Bool)
    (len : Int) (n0 : Nat) (fin' : Bool) (opcode' : Nat) (p : List Nat) (c : Nat)
    (hn0 : 2 ≤ n0)
    (h : parseRest buf fin opcode mask len n0 = .frame fin' opcode' p c) :
    fin' = fin ∧ opcode' = opcode ∧ 2 ≤ c ∧ c ≤ buf.length := by
  unfold parseRest at h
  split_ifs at h <;>
    first
    | exact FrameResult.noConfusion h
    | · rw [FrameResult.frame.injEq] at h
        obtain ⟨hf, ho, _, hc⟩ := h
        subst hc
        exact ⟨hf.symm, ho.symm, by omega, by omega⟩

theorem parseRest_append (buf ext : List Nat) (fin : Bool) (opcode : Nat) (mask : Bool)
    (len : Int) (n0 : Nat)
    (h : parseRest buf fin opcode mask len n0 ≠ .needMore) :
    parseRest (buf ++ ext) fin opcode mask len n0 = parseRest buf fin opcode mask len n0 := by
  have hL : (buf ++ ext).length = buf.length + ext.length := List.length_append _ _
  by_cases hm : mask = true
  · subst hm
    simp only [parseRest, true_and, if_true] at h ⊢
    by_cases h1 : buf.length < n0 + 4
    · rw [if_pos h1] at h
      exact absurd rfl h
    · have h1' : ¬(buf ++ ext).length < n0 + 4 := by omega
      rw [if_neg h1, if_neg h1'] at *
      by_cases h2 : (buf.length : Int) < ((n0 + 4 : Nat) : Int) + len
      · rw [if_pos h2] at h
        exact absurd rfl h
      · have h2' : ¬((buf ++ ext).length : Int) < ((n0 + 4 : Nat) : Int) + len := by
          rw [hL]
          push_cast
          push_cast at h2
          omega
        rw [if_neg h2, if_neg h2']
        by_cases h3 : len < 0
        · rw [if_pos h3, if_pos h3]
        · rw [if_neg h3, if_neg h3]
          have hp : n0 + 4 + len.toNat ≤ buf.length := by
            push_cast at h2
            omega
          rw [dropTake_append buf ext n0 4 (by omega),
            dropTake_append buf ext (n0 + 4) len.toNat (by omega)]
  · have hm' : mask = false := by simpa using hm
    subst hm'
    simp only [parseRest, false_and, if_false, Bool.false_eq_true] at h ⊢
    by_cases h2 : (buf.length : Int) < (n0 : Int) + len
    · rw [if_pos h2] at h
      exact absurd rfl h
    · have h2' : ¬((buf ++ ext).length : Int) < (n0 : Int) + len := by
        rw [hL]
        push_cast
        push_cast at h2
        omega
      rw [if_neg h2, if_neg h2']
      by_cases h3 : len < 0
      · rw [if_pos h3, if_pos h3]
      · rw [if_neg h3, if_neg h3]
        have hp : n0 + len.toNat ≤ buf.length := by
          push_cast at h2
          omega
        rw [dropTake_append buf ext n0 len.toNat (by omega)]

theorem parseFrame_nil : parseFrame [] = .needMore := rfl

theorem parseFrame_frame (buf : List Nat) (fin : Bool) (opcode : Nat) (p : List Nat) (c : Nat)
    (h : parseFrame buf = .frame fin opcode p c) :
    2 ≤ c ∧ c ≤ buf.length := by
  unfold parseFrame at h
  split_ifs at h <;>
    first
    | exact FrameResult.noConfusion h
    | · have := parseRest_frame _ _ _ _ _ _ _ _ _ _ (by omega) h
        exact ⟨this.2.2.1, this.2.2.2⟩

theorem parseFrame_append (buf ext : List Nat) (h : parseFrame buf ≠ .needMore) :
    parseFrame (buf ++ ext) = parseFrame buf := by
  have hL : (buf ++ ext).length = buf.length + ext.length := List.length_append _ _
  unfold parseFrame at h ⊢
  by_cases hl1 : buf.length < 1
  · rw [if_pos hl1] at h
    exact absurd rfl h
  · have hl1' : ¬(buf ++ ext).length < 1 := by omega
    rw [if_neg hl1] at h
    rw [if_neg hl1', if_neg hl1]
    rw [byteAt_append buf ext 0 (by omega)]
    by_cases h8 : byteAt buf 0 % 16 = 8
    · rw [if_pos h8, if_pos h8]
    · rw [if_neg h8, if_neg h8] at *
      by_cases hl2 : buf.length < 2
      · rw [if_pos hl2] at h
        exact absurd rfl h
      · have hl2' : ¬(buf ++ ext).length < 2 := by omega
        rw [if_neg hl2] at h
        rw [if_neg hl2', if_neg hl2]
        rw [byteAt_append buf ext 1 (by omega)]
        by_cases hc1 : byteAt buf 1 % 128 < 126
        · rw [if_pos hc1] at h
          rw [if_pos hc1, if_pos hc1]
          exact parseRest_append _ _ _ _ _ _ _ h
        · rw [if_neg hc1] at h
          rw [if_neg hc1, if_neg hc1]
          by_cases hc2 : byteAt buf 1 % 128 = 126
          · rw [if_pos hc2] at h
            rw [if_pos hc2, if_pos hc2]
            by_cases hl4 : buf.length < 4
            · rw [if_pos hl4] at h
              exact absurd rfl h
            · have hl4' : ¬(buf ++ ext).length < 4 := by omega
              rw [if_neg hl4] at h
              rw [if_neg hl4', if_neg hl4]
              rw [be16at_append buf ext 2 (by omega)]
              exact parseRest_append _ _ _ _ _ _ _ h
          · rw [if_neg hc2] at h
            rw [if_neg hc2, if_neg hc2]
            by_cases hl10 : buf.length < 10
            · rw [if_pos hl10] at h
              exact absurd rfl h
            · have hl10' : ¬(buf ++ ext).length < 10 := by omega
              rw [if_neg hl10] at h
              rw [if_neg hl10', if_neg hl10]
              rw [payloadLength127_append buf ext (by omega)]
              exact parseRest_append _ _ _ _ _ _ _ h

/-! ## Server loop: dispatch and close preserve/ignore the buffer as stated -/

theorem dispatchEnv_dataReceived (s : Conn) (e : Env) :
    (dispatchEnv s e).dataReceived = s.dataReceived := by
  cases e <;> simp only [dispatchEnv] <;> split_ifs <;> rfl

theorem dispatchEnv_closed (s : Conn) (e : Env) :
    (dispatchEnv s e).closed = s.closed := by
  cases e <;> simp only [dispatchEnv] <;> split_ifs <;> rfl

theorem dispatchEnv_crashed (s : Conn) (e : Env) :
    (dispatchEnv s e).crashed = s.crashed := by
  cases e <;> simp only [dispatchEnv] <;> split_ifs <;> rfl

theorem dispatchEnv_setData (s : Conn) (e : Env) (d : List Nat) :
    dispatchEnv { s with dataReceived := d } e = { dispatchEnv s e with dataReceived := d } := by
  cases e <;> simp only [dispatchEnv] <;> split_ifs <;> rfl

theorem srvClose_closed (b : Bool) (s : Conn) : (srvClose b s).closed = true := by
  unfold srvClose
  split_ifs <;> first | assumption | rfl

theorem srvClose_setData (s : Conn) (d : List Nat) (h : s.closed = false) :
    srvClose true { s with dataReceived := d } = srvClose true s := by
  cases s
  simp_all [srvClose]

/-! ## Fuel irrelevance and the unfolding equation of the decode loop -/

theorem runLoopF_fuel (pe : List Nat → Option Env) (f1 f2 : Nat) (s : Conn)
    (h1 : s.dataReceived.length ≤ f1) (h2 : s.dataReceived.length ≤ f2) :
    runLoopF pe f1 s = runLoopF pe f2 s := by
  induction f1 generalizing f2 s with
  | zero =>
    have hnil : s.dataReceived = [] := List.length_eq_zero.mp (by omega)
    cases f2 with
    | zero => rfl
    | succ g =>
      show runLoopF pe 0 s = runLoopF pe (g + 1) s
      rw [runLoopF, runLoopF, hnil, parseFrame_nil]
  | succ k ih =>
    cases f2 with
    | zero =>
      have hnil : s.dataReceived = [] := List.length_eq_zero.mp (by omega)
      show runLoopF pe (k + 1) s = runLoopF pe 0 s
      rw [runLoopF, runLoopF, hnil, parseFrame_nil]
    | succ g =>
      rw [runLoopF, runLoopF]
      rcases hpf : parseFrame s.dataReceived with _ | _ | _ | ⟨fin, opcode, payload, c⟩
      · rfl
      · rfl
      · rfl
      · have hb := parseFrame_frame _ _ _ _ _ hpf
        have hrest : (s.dataReceived.drop c).length = s.dataReceived.length - c := by
          simp
        simp only
        split_ifs
        · cases hpe : pe (s.payloadReceived ++ payload) with
          | none => rfl
          | some e =>
            dsimp only
            have h3 : (dispatchEnv { s with payloadReceived := [], dataReceived := s.dataReceived.drop c } e).dataReceived.length ≤ k := by
              rw [dispatchEnv_dataReceived]
              show (s.dataReceived.drop c).length ≤ k
              rw [hrest]
              omega
            have h4 : (dispatchEnv { s with payloadReceived := [], dataReceived := s.dataReceived.drop c } e).dataReceived.length ≤ g := by
              rw [dispatchEnv_dataReceived]
              show (s.dataReceived.drop c).length ≤ g
              rw [hrest]
              omega
            rw [ih _ _ h3 h4]
        · exact ih _ _ (by show (s.dataReceived.drop c).length ≤ k; rw [hrest]; omega)
            (by show (s.dataReceived.drop c).length ≤ g; rw [hrest]; omega)
        · exact ih _ _ (by show (s.dataReceived.drop c).length ≤ k; rw [hrest]; omega)
            (by show (s.dataReceived.drop c).length ≤ g; rw [hrest]; omega)

theorem runLoop_eq (pe : List Nat → Option Env) (s : Conn) :
    runLoop pe s =
      match parseFrame s.dataReceived with
      | .needMore => (s, [])
      | .closeConn => (srvClose true s, [])
      | .invalid => ({ s with crashed := true, dataReceived := [] }, [])
      | .frame fin opcode payload c =>
        if fin then
          if opcode = 1 then
            match pe (s.payloadReceived ++ payload) with
            | none => (srvClose true { s with payloadReceived := s.payloadReceived ++ payload, dataReceived := s.dataReceived.drop c }, [s.payloadReceived ++ payload])
            | some e =>
              ((runLoop pe (dispatchEnv { s with payloadReceived := [], dataReceived := s.dataReceived.drop c } e)).1,
                (s.payloadReceived ++ payload) :: (runLoop pe (dispatchEnv { s with payloadReceived := [], dataReceived := s.dataReceived.drop c } e)).2)
          else runLoop pe { s with payloadReceived := [], dataReceived := s.dataReceived.drop c }
        else runLoop pe { s with payloadReceived := s.payloadReceived ++ payload, dataReceived := s.dataReceived.drop c } := by
  unfold runLoop
  rcases hn : s.dataReceived.length with _ | k
  · have hnil : s.dataReceived = [] := List.length_eq_zero.mp hn
    rw [hnil, parseFrame_nil]
    rfl
  · rw [runLoopF]
    rcases hpf : parseFrame s.dataReceived with _ | _ | _ | ⟨fin, opcode, payload, c⟩
    · rfl
    · rfl
    · rfl
    · have hb := parseFrame_frame _ _ _ _ _ hpf
      have hrest : (s.dataReceived.drop c).length = s.dataReceived.length - c := by
        simp
      dsimp only
      split_ifs
      · cases hpe : pe (s.payloadReceived ++ payload) with
        | none => rfl
        | some e =>
          dsimp only
          rw [runLoopF_fuel pe k
            ((dispatchEnv { s with payloadReceived := [], dataReceived := s.dataReceived.drop c } e).dataReceived.length)
            (dispatchEnv { s with payloadReceived := [], dataReceived := s.dataReceived.drop c } e)
            (by rw [dispatchEnv_dataReceived]; show (s.dataReceived.drop c).length ≤ k; rw [hrest]; omega)
            le_rfl]
      · exact runLoopF_fuel pe k _ _
          (by show (s.dataReceived.drop c).length ≤ k; rw [hrest]; omega) le_rfl
      · exact runLoopF_fuel pe k _ _
          (by show (s.dataReceived.drop c).length ≤ k; rw [hrest]; omega) le_rfl

/-- Feeding extra bytes `ext` after the loop has quiesced gives the same
state and outputs as having had them in the buffer from the start: the
loop retains unconsumed data and never re-reads consumed data, and once the
connection closes (or processing dies) the buffered remainder is discarded
either way. -/
theorem runLoop_append (pe : List Nat → Option Env) (ext : List Nat) : ∀ (s : Conn),
    s.closed = false → s.crashed = false →
    runLoop pe { s with dataReceived := s.dataReceived ++ ext } =
      if (runLoop pe s).1.closed || (runLoop pe s).1.crashed then runLoop pe s
      else
        ((runLoop pe { (runLoop pe s).1 with dataReceived := (runLoop pe s).1.dataReceived ++ ext }).1,
          (runLoop pe s).2 ++ (runLoop pe { (runLoop pe s).1 with dataReceived := (runLoop pe s).1.dataReceived ++ ext }).2) := by
  suffices H : ∀ (n : Nat) (t : Conn), t.dataReceived.length ≤ n → t.closed = false → t.crashed = false →
      runLoop pe { t with dataReceived := t.dataReceived ++ ext } =
        if (runLoop pe t).1.closed || (runLoop pe t).1.crashed then runLoop pe t
        else
          ((runLoop pe { (runLoop pe t).1 with dataReceived := (runLoop pe t).1.dataReceived ++ ext }).1,
            (runLoop pe t).2 ++ (runLoop pe { (runLoop pe t).1 with dataReceived := (runLoop pe t).1.dataReceived ++ ext }).2) by
    intro s hcl hcr
    exact H s.dataReceived.length s le_rfl hcl hcr
  intro n
  induction n with
  | zero =>
    intro t hlen hcl hcr
    have hnil : t.dataReceived = [] := List.length_eq_zero.mp (by omega)
    have h1 : runLoop pe t = (t, []) := by rw [runLoop_eq, hnil, parseFrame_nil]
    rw [h1]
    dsimp only
    rw [hcl, hcr]
    simp
  | succ k ih =>
    intro t hlen hcl hcr
    rcases hpf : parseFrame t.dataReceived with _ | _ | _ | ⟨fin, opcode, payload, c⟩
    · have h1 : runLoop pe t = (t, []) := by rw [runLoop_eq, hpf]
      rw [h1]
      dsimp only
      rw [hcl, hcr]
      simp
    · have h1 : runLoop pe t = (srvClose true t, []) := by rw [runLoop_eq, hpf]
      have hpf' : parseFrame (t.dataReceived ++ ext) = .closeConn :=
        (parseFrame_append t.dataReceived ext (by rw [hpf]; intro hx; exact FrameResult.noConfusion hx)).trans hpf
      have hL : runLoop pe { t with dataReceived := t.dataReceived ++ ext } =
          (srvClose true { t with dataReceived := t.dataReceived ++ ext }, []) := by
        rw [runLoop_eq]
        dsimp only
        rw [hpf']
      rw [hL, h1]
      rw [srvClose_closed]
      simp only [Bool.true_or, if_true]
      exact congrArg (fun x => (x, ([] : List (List Nat)))) (srvClose_setData t (t.dataReceived ++ ext) hcl)
    · have h1 : runLoop pe t = ({ t with crashed := true, dataReceived := [] }, []) := by
        rw [runLoop_eq, hpf]
      have hpf' : parseFrame (t.dataReceived ++ ext) = .invalid :=
        (parseFrame_append t.dataReceived ext (by rw [hpf]; intro hx; exact FrameResult.noConfusion hx)).trans hpf
      have hL : runLoop pe { t with dataReceived := t.dataReceived ++ ext } =
          ({ t with crashed := true, dataReceived := [] }, []) := by
        rw [runLoop_eq]
        dsimp only
        rw [hpf']
      rw [hL, h1]
      dsimp only
      simp
    · have hb := parseFrame_frame _ _ _ _ _ hpf
      have hpf' : parseFrame (t.dataReceived ++ ext) = .frame fin opcode payload c :=
        (parseFrame_append t.dataReceived ext (by rw [hpf]; intro hx; exact FrameResult.noConfusion hx)).trans hpf
      have hdrop : (t.dataReceived ++ ext).drop c = t.dataReceived.drop c ++ ext :=
        List.drop_append_of_le_length hb.2
      have hlrest : (t.dataReceived.drop c).length ≤ k := by
        have := hb.1
        have := hb.2
        simp only [List.length_drop]
        omega
      have hL0 : runLoop pe { t with dataReceived := t.dataReceived ++ ext } =
          (match parseFrame (t.dataReceived ++ ext) with
          | .needMore => ({ t with dataReceived := t.dataReceived ++ ext }, [])
          | .closeConn => (srvClose true { t with dataReceived := t.dataReceived ++ ext }, [])
          | .invalid => ({ t with crashed := true, dataReceived := [] }, [])
          | .frame fin opcode payload c =>
            if fin then
              if opcode = 1 then
                match pe (t.payloadReceived ++ payload) with
                | none => (srvClose true { t with payloadReceived := t.payloadReceived ++ payload, dataReceived := (t.dataReceived ++ ext).drop c }, [t.payloadReceived ++ payload])
                | some e =>
                  ((runLoop pe (dispatchEnv { t with payloadReceived := [], dataReceived := (t.dataReceived ++ ext).drop c } e)).1,
                    (t.payloadReceived ++ payload) :: (runLoop pe (dispatchEnv { t with payloadReceived := [], dataReceived := (t.dataReceived ++ ext).drop c } e)).2)
              else runLoop pe { t with payloadReceived := [], dataReceived := (t.dataReceived ++ ext).drop c }
            else runLoop pe { t with payloadReceived := t.payloadReceived ++ payload, dataReceived := (t.dataReceived ++ ext).drop c }) :=
        runLoop_eq pe { t with dataReceived := t.dataReceived ++ ext }
      rw [hL0, hpf']
      dsimp only
      rw [hdrop]
      rw [runLoop_eq pe t, hpf]
      dsimp only
      by_cases hfin : fin = true
      · rw [if_pos hfin, if_pos hfin]
        by_cases hop : opcode = 1
        · rw [if_pos hop, if_pos hop]
          cases hpe : pe (t.payloadReceived ++ payload) with
          | none =>
            dsimp only
            rw [srvClose_closed]
            simp only [Bool.true_or, if_true]
            exact congrArg (fun x => (x, [t.payloadReceived ++ payload]))
              (srvClose_setData { t with payloadReceived := t.payloadReceived ++ payload, dataReceived := t.dataReceived.drop c }
                (t.dataReceived.drop c ++ ext) hcl)
          | some e =>
            dsimp only
            have hsetd : dispatchEnv { t with payloadReceived := [], dataReceived := t.dataReceived.drop c ++ ext } e =
                { dispatchEnv { t with payloadReceived := [], dataReceived := t.dataReceived.drop c } e with
                    dataReceived := (dispatchEnv { t with payloadReceived := [], dataReceived := t.dataReceived.drop c } e).dataReceived ++ ext } := by
              rw [dispatchEnv_dataReceived]
              exact dispatchEnv_setData { t with payloadReceived := [], dataReceived := t.dataReceived.drop c } e (t.dataReceived.drop c ++ ext)
            rw [hsetd]
            rw [ih (dispatchEnv { t with payloadReceived := [], dataReceived := t.dataReceived.drop c } e)
              (by rw [dispatchEnv_dataReceived]; exact hlrest)
              (by rw [dispatchEnv_closed]; exact hcl)
              (by rw [dispatchEnv_crashed]; exact hcr)]
            by_cases hcond : ((runLoop pe (dispatchEnv { t with payloadReceived := [], dataReceived := t.dataReceived.drop c } e)).1.closed
                || (runLoop pe (dispatchEnv { t with payloadReceived := [], dataReceived := t.dataReceived.drop c } e)).1.crashed) = true
            · rw [if_pos hcond, if_pos hcond]
            · rw [if_neg hcond, if_neg hcond]
              simp
        · rw [if_neg hop, if_neg hop]
          have hsB : ({ t with payloadReceived := [], dataReceived := t.dataReceived.drop c ++ ext } : Conn) =
              { ({ t with payloadReceived := [], dataReceived := t.dataReceived.drop c } : Conn) with
                  dataReceived := ({ t with payloadReceived := [], dataReceived := t.dataReceived.drop c } : Conn).dataReceived ++ ext } := rfl
          rw [hsB]
          exact ih { t with payloadReceived := [], dataReceived := t.dataReceived.drop c } hlrest hcl hcr
      · rw [if_neg hfin, if_neg hfin]
        have hsC : ({ t with payloadReceived := t.payloadReceived ++ payload, dataReceived := t.dataReceived.drop c ++ ext } : Conn) =
            { ({ t with payloadReceived := t.payloadReceived ++ payload, dataReceived := t.dataReceived.drop c } : Conn) with
                dataReceived := ({ t with payloadReceived := t.payloadReceived ++ payload, dataReceived := t.dataReceived.drop c } : Conn).dataReceived ++ ext } := rfl
        rw [hsC]
        exact ih { t with payloadReceived := t.payloadReceived ++ payload, dataReceived := t.dataReceived.drop c } hlrest hcl hcr

/-- Two successive data events deliver exactly what one event carrying the
concatenated bytes delivers, with the same final state. -/
theorem runData_append (pe : List Nat → Option Env) (s : Conn) (a b : List Nat) :
    ((runData pe (runData pe s a).1 b).1,
      (runData pe s a).2 ++ (runData pe (runData pe s a).1 b).2) = runData pe s (a ++ b) := by
  by_cases hdead : (s.closed || s.crashed) = true
  · have h1 : runData pe s a = (s, []) := by unfold runData; rw [if_pos hdead]
    have h3 : runData pe s (a ++ b) = (s, []) := by unfold runData; rw [if_pos hdead]
    have h2 : runData pe s b = (s, []) := by unfold runData; rw [if_pos hdead]
    rw [h1, h3]
    dsimp only
    rw [h2]
    rfl
  · simp only [Bool.or_eq_true, not_or, Bool.not_eq_true] at hdead
    obtain ⟨hcl, hcr⟩ := hdead
    have h1 : runData pe s a = runLoop pe { s with dataReceived := s.dataReceived ++ a } := by
      unfold runData
      rw [if_neg (by simp [hcl, hcr])]
    have h3 : runData pe s (a ++ b) = runLoop pe { s with dataReceived := s.dataReceived ++ a ++ b } := by
      unfold runData
      rw [if_neg (by simp [hcl, hcr]), List.append_assoc]
    have happ := runLoop_append pe b { s with dataReceived := s.dataReceived ++ a } hcl hcr
    rw [h1, h3]
    rw [show ({ s with dataReceived := s.dataReceived ++ a ++ b } : Conn) =
      { ({ s with dataReceived := s.dataReceived ++ a } : Conn) with
          dataReceived := ({ s with dataReceived := s.dataReceived ++ a } : Conn).dataReceived ++ b } from rfl]
    rw [happ]
    unfold runData
    by_cases hcond : ((runLoop pe { s with dataReceived := s.dataReceived ++ a }).1.closed
        || (runLoop pe { s with dataReceived := s.dataReceived ++ a }).1.crashed) = true
    · rw [if_pos hcond, if_pos hcond]
      simp
    · rw [if_neg hcond, if_neg hcond]

/-- C2: For every encoded frame byte stream and every way of splitting it
into two or more chunks at arbitrary byte offsets, feeding the chunks one
at a time to the server's incremental decoder produces exactly the same
sequence of decoded payloads and the same final connection state as feeding
the whole stream at once; partial-frame data is retained across calls and
never discarded while the connection stays open.  Proved here for every
byte stream (encoded or not), every initial connection state, and every
JSON-parse oracle: `runChunks` over any non-empty chunk list equals
`runData` on the concatenation, in both outputs and final state (retention
is what makes this hold: the `needMore` path of the loop keeps the buffer
untouched for the next call). -/
theorem c2_incremental_decode_chunking (pe : List Nat → Option Env) (s : Conn)
    (c : List Nat) (cs : List (List Nat)) :
    runChunks pe s (c :: cs) = runData pe s (c :: cs).flatten := by
  induction cs generalizing s c with
  | nil =>
    show ((runChunks pe (runData pe s c).1 []).1,
      (runData pe s c).2 ++ (runChunks pe (runData pe s c).1 []).2) = _
    unfold runChunks
    simp [List.flatten]
  | cons c2 cs ih =>
    show ((runChunks pe (runData pe s c).1 (c2 :: cs)).1,
      (runData pe s c).2 ++ (runChunks pe (runData pe s c).1 (c2 :: cs)).2) = _
    rw [ih]
    rw [show (c :: c2 :: cs).flatten = c ++ (c2 :: cs).flatten from by simp [List.flatten]]
    exact runData_append pe s c ((c2 :: cs).flatten)

/-! ## Masking is an involution; encoded frames parse back -/

theorem maskFrom_length (key : List Nat) (i : Nat) (p : List Nat) :
    (maskFrom key i p).length = p.length := by
  induction p generalizing i with
  | nil => rfl
  | cons b rest ih => simp [maskFrom, ih]

theorem maskFrom_maskFrom (key : List Nat) (i : Nat) (p : List Nat) :
    maskFrom key i (maskFrom key i p) = p := by
  induction p generalizing i with
  | nil => rfl
  | cons b rest ih =>
    simp only [maskFrom, ih, List.cons.injEq, and_true]
    exact Nat.xor_cancel_right _ _

theorem parseRest_wf_unmasked (b0 b1 : Nat) (mid p rest : List Nat) (fin : Bool) (o : Nat)
    (len : Int) (n0 : Nat) (hlen : len = (p.length : Int)) (hn0 : n0 = 2 + mid.length) :
    parseRest (b0 :: b1 :: (mid ++ (p ++ rest))) fin o false len n0 =
      .frame fin o p (n0 + p.length) := by
  subst hlen
  subst hn0
  unfold parseRest
  rw [if_neg (by simp)]
  rw [if_neg (by
    simp only [Bool.false_eq_true, if_false, List.length_cons, List.length_append]
    push_cast
    omega)]
  rw [if_neg (by omega)]
  simp only [Bool.false_eq_true, if_false, Int.toNat_natCast]
  congr 1
  show ((b0 :: b1 :: (mid ++ (p ++ rest))).drop (2 + mid.length)).take p.length = p
  rw [show (2 + mid.length) = mid.length + 2 from by omega]
  rw [show ((b0 :: b1 :: (mid ++ (p ++ rest))).drop (mid.length + 2) : List Nat) =
    (mid ++ (p ++ rest)).drop mid.length from rfl]
  rw [List.drop_left]
  exact List.take_left p rest

theorem parseRest_wf_masked (b0 b1 : Nat) (mid key p rest : List Nat) (fin : Bool) (o : Nat)
    (len : Int) (n0 : Nat) (hlen : len = (p.length : Int)) (hn0 : n0 = 2 + mid.length)
    (hkey : key.length = 4) :
    parseRest (b0 :: b1 :: (mid ++ (key ++ (maskFrom key 0 p ++ rest)))) fin o true len n0 =
      .frame fin o p (n0 + 4 + p.length) := by
  subst hlen
  subst hn0
  have hml : (maskFrom key 0 p).length = p.length := maskFrom_length key 0 p
  unfold parseRest
  rw [if_neg (by
    simp only [List.length_cons, List.length_append, hkey, hml, true_and, not_lt]
    omega)]
  rw [if_neg (by
    simp only [if_pos rfl, List.length_cons, List.length_append, hkey, hml]
    push_cast
    omega)]
  rw [if_neg (by omega)]
  simp only [if_pos rfl, Int.toNat_natCast]
  have hd2 : ((b0 :: b1 :: (mid ++ (key ++ (maskFrom key 0 p ++ rest)))).drop (2 + mid.length)
      : List Nat) = key ++ (maskFrom key 0 p ++ rest) := by
    rw [show (2 + mid.length) = mid.length + 2 from by omega]
    rw [show ((b0 :: b1 :: (mid ++ (key ++ (maskFrom key 0 p ++ rest)))).drop (mid.length + 2)
      : List Nat) = (mid ++ (key ++ (maskFrom key 0 p ++ rest))).drop mid.length from rfl]
    rw [List.drop_left]
  have hd6 : ((b0 :: b1 :: (mid ++ (key ++ (maskFrom key 0 p ++ rest)))).drop (2 + mid.length + 4)
      : List Nat) = maskFrom key 0 p ++ rest := by
    rw [show (2 + mid.length + 4) = (mid.length + 4) + 2 from by omega]
    rw [show ((b0 :: b1 :: (mid ++ (key ++ (maskFrom key 0 p ++ rest)))).drop ((mid.length + 4) + 2)
      : List Nat) = (mid ++ (key ++ (maskFrom key 0 p ++ rest))).drop (mid.length + 4) from rfl]
    rw [show (mid ++ (key ++ (maskFrom key 0 p ++ rest)) : List Nat) =
      (mid ++ key) ++ (maskFrom key 0 p ++ rest) from by simp]
    rw [List.drop_left' (by simp [hkey])]
  rw [hd2, hd6]
  rw [List.take_left' hkey]
  rw [List.take_left' hml]
  rw [maskFrom_maskFrom]
  simp

theorem parseFrame_header (b0 b1 : Nat) (t : List Nat) :
    parseFrame (b0 :: b1 :: t) =
      if b0 % 16 = 8 then .closeConn
      else if b1 % 128 < 126 then
        parseRest (b0 :: b1 :: t) (b0 / 128 == 1) (b0 % 16) (b1 / 128 == 1)
          ((b1 % 128 : Nat) : Int) 2
      else if b1 % 128 = 126 then
        if (b0 :: b1 :: t).length < 4 then .needMore
        else parseRest (b0 :: b1 :: t) (b0 / 128 == 1) (b0 % 16) (b1 / 128 == 1)
          ((be16at (b0 :: b1 :: t) 2 : Nat) : Int) 4
      else
        if (b0 :: b1 :: t).length < 10 then .needMore
        else parseRest (b0 :: b1 :: t) (b0 / 128 == 1) (b0 % 16) (b1 / 128 == 1)
          (payloadLength127 (b0 :: b1 :: t)) 10 := by
  unfold parseFrame
  rw [if_neg (show ¬(b0 :: b1 :: t).length < 1 from by simp)]
  rw [if_neg (show ¬(b0 :: b1 :: t).length < 2 from by simp)]
  rfl

theorem parseFrame_encodeFrame (fin : Bool) (o : Nat) (masked : Bool) (key p rest : List Nat)
    (ho : o < 16) (ho8 : o ≠ 8) (hlen : p.length < 4294967296)
    (hkey : masked = true → key.length = 4) :
    parseFrame (encodeFrame fin o masked key p ++ rest) =
      .frame fin o p ((if p.length < 126 then 2 else if p.length < 65536 then 4 else 10)
        + (if masked then 4 else 0) + p.length) := by
  have hmod : ((if fin then 128 else 0) + o) % 16 = o := by
    cases fin <;> simp <;> omega
  have hop8 : ¬((if fin then 128 else 0) + o) % 16 = 8 := by
    rw [hmod]
    exact ho8
  have hfin : (((if fin then 128 else 0) + o) / 128 == 1) = fin := by
    cases fin with
    | false =>
      rw [if_neg (by simp), Nat.zero_add, Nat.div_eq_of_lt (by omega)]
      rfl
    | true =>
      rw [if_pos rfl, show (128 + o) / 128 = 1 from by omega]
      rfl
  have hmb : ∀ lc : Nat, lc ≤ 127 → (((if masked then 128 else 0) + lc) / 128 == 1) = masked := by
    intro lc hlc
    cases masked with
    | false =>
      rw [if_neg (by simp), Nat.zero_add, Nat.div_eq_of_lt (by omega)]
      rfl
    | true =>
      rw [if_pos rfl, show (128 + lc) / 128 = 1 from by omega]
      rfl
  have hlcm : ∀ lc : Nat, lc ≤ 127 → ((if masked then 128 else 0) + lc) % 128 = lc := by
    intro lc hlc
    cases masked <;> simp <;> omega
  by_cases h1 : p.length < 126
  · by_cases hm : masked = true
    · have hk := hkey hm
      have hshape : encodeFrame fin o masked key p ++ rest =
          ((if fin then 128 else 0) + o) :: ((if masked then 128 else 0) + p.length)
            :: (key ++ (maskFrom key 0 p ++ rest)) := by
        unfold encodeFrame
        rw [if_pos h1, if_pos h1]
        simp [hm]
      rw [hshape, parseFrame_header, if_neg hop8, hlcm p.length (by omega), if_pos h1,
        hfin, hmod, hmb p.length (by omega)]
      have := parseRest_wf_masked ((if fin then 128 else 0) + o)
        ((if masked then 128 else 0) + p.length) [] key p rest fin o
        ((p.length : Nat) : Int) 2 rfl rfl hk
      simpa [hm, h1] using this
    · have hshape : encodeFrame fin o masked key p ++ rest =
          ((if fin then 128 else 0) + o) :: ((if masked then 128 else 0) + p.length)
            :: (p ++ rest) := by
        unfold encodeFrame
        rw [if_pos h1, if_pos h1]
        simp [hm]
      rw [hshape, parseFrame_header, if_neg hop8, hlcm p.length (by omega), if_pos h1,
        hfin, hmod, hmb p.length (by omega)]
      have := parseRest_wf_unmasked ((if fin then 128 else 0) + o)
        ((if masked then 128 else 0) + p.length) [] p rest fin o
        ((p.length : Nat) : Int) 2 rfl rfl
      simpa [hm, h1] using this
  · by_cases h2 : p.length < 65536
    · by_cases hm : masked = true
      · have hk := hkey hm
        have hshape : encodeFrame fin o masked key p ++ rest =
            ((if fin then 128 else 0) + o) :: ((if masked then 128 else 0) + 126)
              :: (be16 p.length ++ (key ++ (maskFrom key 0 p ++ rest))) := by
          unfold encodeFrame
          rw [if_neg h1, if_pos h2, if_neg h1, if_pos h2]
          simp [hm]
        rw [hshape, parseFrame_header, if_neg hop8, hlcm 126 (by omega)]
        rw [if_neg (by omega), if_pos rfl]
        rw [if_neg (show ¬(((if fin then 128 else 0) + o) :: ((if masked then 128 else 0) + 126)
          :: (be16 p.length ++ (key ++ (maskFrom key 0 p ++ rest)))).length < 4 from by
            simp [be16])]
        rw [hfin, hmod, hmb 126 (by omega)]
        have hbe : be16at (((if fin then 128 else 0) + o) :: ((if masked then 128 else 0) + 126)
            :: (be16 p.length ++ (key ++ (maskFrom key 0 p ++ rest)))) 2 = p.length := by
          show p.length / 256 % 256 * 256 + p.length % 256 = p.length
          omega
        rw [hbe]
        have := parseRest_wf_masked ((if fin then 128 else 0) + o)
          ((if masked then 128 else 0) + 126) (be16 p.length) key p rest fin o
          ((p.length : Nat) : Int) 4 rfl (by simp [be16]) hk
        simpa [hm, h1, h2] using this
      · have hshape : encodeFrame fin o masked key p ++ rest =
            ((if fin then 128 else 0) + o) :: ((if masked then 128 else 0) + 126)
              :: (be16 p.length ++ (p ++ rest)) := by
          unfold encodeFrame
          rw [if_neg h1, if_pos h2, if_neg h1, if_pos h2]
          simp [hm]
        rw [hshape, parseFrame_header, if_neg hop8, hlcm 126 (by omega)]
        rw [if_neg (by omega), if_pos rfl]
        rw [if_neg (show ¬(((if fin then 128 else 0) + o) :: ((if masked then 128 else 0) + 126)
          :: (be16 p.length ++ (p ++ rest))).length < 4 from by simp [be16])]
        rw [hfin, hmod, hmb 126 (by omega)]
        have hbe : be16at (((if fin then 128 else 0) + o) :: ((if masked then 128 else 0) + 126)
            :: (be16 p.length ++ (p ++ rest))) 2 = p.length := by
          show p.length / 256 % 256 * 256 + p.length % 256 = p.length
          omega
        rw [hbe]
        have := parseRest_wf_unmasked ((if fin then 128 else 0) + o)
          ((if masked then 128 else 0) + 126) (be16 p.length) p rest fin o
          ((p.length : Nat) : Int) 4 rfl (by simp [be16])
        simpa [hm, h1, h2] using this
    · by_cases hm : masked = true
      · have hk := hkey hm
        have hshape : encodeFrame fin o masked key p ++ rest =
            ((if fin then 128 else 0) + o) :: ((if masked then 128 else 0) + 127)
              :: (be64 p.length ++ (key ++ (maskFrom key 0 p ++ rest))) := by
          unfold encodeFrame
          rw [if_neg h1, if_neg h2, if_neg h1, if_neg h2]
          simp [hm]
        rw [hshape, parseFrame_header, if_neg hop8, hlcm 127 (by omega)]
        rw [if_neg (by omega), if_neg (by omega)]
        rw [if_neg (show ¬(((if fin then 128 else 0) + o) :: ((if masked then 128 else 0) + 127)
          :: (be64 p.length ++ (key ++ (maskFrom key 0 p ++ rest)))).length < 10 from by
            simp [be64, be32])]
        rw [hfin, hmod, hmb 127 (by omega)]
        have hP : payloadLength127 (((if fin then 128 else 0) + o)
            :: ((if masked then 128 else 0) + 127)
            :: (be64 p.length ++ (key ++ (maskFrom key 0 p ++ rest)))) = (p.length : Int) := by
          unfold payloadLength127
          rw [show be32at (((if fin then 128 else 0) + o) :: ((if masked then 128 else 0) + 127)
            :: (be64 p.length ++ (key ++ (maskFrom key 0 p ++ rest)))) 2 = 0 from by
              show p.length / 4294967296 / 16777216 % 256 * 16777216
                + p.length / 4294967296 / 65536 % 256 * 65536
                + p.length / 4294967296 / 256 % 256 * 256
                + p.length / 4294967296 % 256 = 0
              rw [show p.length / 4294967296 = 0 from by omega]]
          rw [show be32at (((if fin then 128 else 0) + o) :: ((if masked then 128 else 0) + 127)
            :: (be64 p.length ++ (key ++ (maskFrom key 0 p ++ rest)))) 6 = p.length from by
              show p.length / 16777216 % 256 * 16777216 + p.length / 65536 % 256 * 65536
                + p.length / 256 % 256 * 256 + p.length % 256 = p.length
              omega]
          simp [jsToInt32]
        rw [hP]
        have := parseRest_wf_masked ((if fin then 128 else 0) + o)
          ((if masked then 128 else 0) + 127) (be64 p.length) key p rest fin o
          ((p.length : Nat) : Int) 10 rfl (by simp [be64, be32]) hk
        simpa [hm, h1, h2] using this
      · have hshape : encodeFrame fin o masked key p ++ rest =
            ((if fin then 128 else 0) + o) :: ((if masked then 128 else 0) + 127)
              :: (be64 p.length ++ (p ++ rest)) := by
          unfold encodeFrame
          rw [if_neg h1, if_neg h2, if_neg h1, if_neg h2]
          simp [hm]
        rw [hshape, parseFrame_header, if_neg hop8, hlcm 127 (by omega)]
        rw [if_neg (by omega), if_neg (by omega)]
        rw [if_neg (show ¬(((if fin then 128 else 0) + o) :: ((if masked then 128 else 0) + 127)
          :: (be64 p.length ++ (p ++ rest))).length < 10 from by simp [be64, be32])]
        rw [hfin, hmod, hmb 127 (by omega)]
        have hP : payloadLength127 (((if fin then 128 else 0) + o)
            :: ((if masked then 128 else 0) + 127)
            :: (be64 p.length ++ (p ++ rest))) = (p.length : Int) := by
          unfold payloadLength127
          rw [show be32at (((if fin then 128 else 0) + o) :: ((if masked then 128 else 0) + 127)
            :: (be64 p.length ++ (p ++ rest))) 2 = 0 from by
              show p.length / 4294967296 / 16777216 % 256 * 16777216
                + p.length / 4294967296 / 65536 % 256 * 65536
                + p.length / 4294967296 / 256 % 256 * 256
                + p.length / 4294967296 % 256 = 0
              rw [show p.length / 4294967296 = 0 from by omega]]
          rw [show be32at (((if fin then 128 else 0) + o) :: ((if masked then 128 else 0) + 127)
            :: (be64 p.length ++ (p ++ rest))) 6 = p.length from by
              show p.length / 16777216 % 256 * 16777216 + p.length / 65536 % 256 * 65536
                + p.length / 256 % 256 * 256 + p.length % 256 = p.length
              omega]
          simp [jsToInt32]
        rw [hP]
        have := parseRest_wf_unmasked ((if fin then 128 else 0) + o)
          ((if masked then 128 else 0) + 127) (be64 p.length) p rest fin o
          ((p.length : Nat) : Int) 10 rfl (by simp [be64, be32])
        simpa [hm, h1, h2] using this

theorem parseFrame_opcode8 (fin : Bool) (masked : Bool) (key p rest : List Nat) :
    parseFrame (encodeFrame fin 8 masked key p ++ rest) = .closeConn := by
  unfold encodeFrame
  simp only [List.cons_append, List.nil_append, List.append_assoc]
  rw [parseFrame_header]
  rw [if_pos (show ((if fin then 128 else 0) + 8) % 16 = 8 from by cases fin <;> simp)]

theorem encodeFrame_length (fin : Bool) (o : Nat) (masked : Bool) (key p : List Nat)
    (hkey : masked = true → key.length = 4) :
    (encodeFrame fin o masked key p).length =
      (if p.length < 126 then 2 else if p.length < 65536 then 4 else 10)
        + (if masked then 4 else 0) + p.length := by
  unfold encodeFrame
  have hml : (maskFrom key 0 p).length = p.length := maskFrom_length key 0 p
  by_cases hm : masked = true
  · have hk := hkey hm
    by_cases h1 : p.length < 126
    · simp [h1, hm, hml, hk]
      try omega
    · by_cases h2 : p.length < 65536
      · simp [h1, h2, hm, hml, hk, be16]
        try omega
      · simp [h1, h2, hm, hml, hk, be64, be32]
        try omega
  · by_cases h1 : p.length < 126
    · simp [h1, hm]
      try omega
    · by_cases h2 : p.length < 65536
      · simp [h1, h2, hm, be16]
        try omega
      · simp [h1, h2, hm, be64, be32]
        try omega

theorem runData_one_text_frame (pe : List Nat → Option Env) (s : Conn) (masked : Bool)
    (key p : List Nat) (hcl : s.closed = false) (hcr : s.crashed = false)
    (hbuf : s.dataReceived = []) (hlen : p.length < 4294967296)
    (hkey : masked = true → key.length = 4) :
    runData pe s (encodeFrame true 1 masked key p) =
      match pe (s.payloadReceived ++ p) with
      | none => (srvClose true { s with payloadReceived := s.payloadReceived ++ p, dataReceived := [] },
          [s.payloadReceived ++ p])
      | some e => (dispatchEnv { s with payloadReceived := [], dataReceived := [] } e,
          [s.payloadReceived ++ p]) := by
  unfold runData
  rw [if_neg (by simp [hcl, hcr])]
  rw [runLoop_eq]
  dsimp only
  rw [hbuf, List.nil_append]
  rw [← List.append_nil (encodeFrame true 1 masked key p)]
  rw [parseFrame_encodeFrame true 1 masked key p [] (by omega) (by omega) hlen hkey]
  have hdrop : (encodeFrame true 1 masked key p ++ ([] : List Nat)).drop
      ((if p.length < 126 then 2 else if p.length < 65536 then 4 else 10)
        + (if masked then 4 else 0) + p.length) = [] := by
    rw [List.append_nil, ← encodeFrame_length true 1 masked key p hkey]
    exact List.drop_length _
  dsimp only
  rw [if_pos rfl, if_pos rfl, hdrop]
  cases hpe : pe (s.payloadReceived ++ p) with
  | none => rfl
  | some e =>
    have hX : runLoop pe (dispatchEnv { s with payloadReceived := [], dataReceived := [] } e) =
        (dispatchEnv { s with payloadReceived := [], dataReceived := [] } e, []) := by
      rw [runLoop_eq, dispatchEnv_dataReceived]
      dsimp only
      rw [parseFrame_nil]
    dsimp only
    rw [hX]

theorem runData_one_skipped_frame (pe : List Nat → Option Env) (s : Conn) (o : Nat)
    (p : List Nat) (hcl : s.closed = false) (hcr : s.crashed = false)
    (hbuf : s.dataReceived = []) (hlen : p.length < 4294967296)
    (ho : o < 16) (ho1 : o ≠ 1) (ho8 : o ≠ 8) :
    runData pe s (encodeFrame true o false [] p) =
      ({ s with payloadReceived := [], dataReceived := [] }, []) := by
  unfold runData
  rw [if_neg (by simp [hcl, hcr])]
  rw [runLoop_eq]
  dsimp only
  rw [hbuf, List.nil_append, ← List.append_nil (encodeFrame true o false [] p)]
  rw [parseFrame_encodeFrame true o false [] p [] ho ho8 hlen (by simp)]
  have hdrop : (encodeFrame true o false [] p ++ ([] : List Nat)).drop
      ((if p.length < 126 then 2 else if p.length < 65536 then 4 else 10)
        + (if false then 4 else 0) + p.length) = [] := by
    rw [List.append_nil, ← encodeFrame_length true o false [] p (by simp)]
    exact List.drop_length _
  dsimp only
  rw [if_pos rfl, if_neg ho1, hdrop]
  rw [runLoop_eq]
  dsimp only
  rw [parseFrame_nil]

theorem runData_one_close_frame (pe : List Nat → Option Env) (s : Conn) (masked : Bool)
    (key p : List Nat) (hcl : s.closed = false) (hcr : s.crashed = false)
    (hbuf : s.dataReceived = []) :
    runData pe s (encodeFrame true 8 masked key p) = (srvClose true s, []) := by
  unfold runData
  rw [if_neg (by simp [hcl, hcr])]
  rw [runLoop_eq]
  dsimp only
  rw [hbuf, List.nil_append, ← List.append_nil (encodeFrame true 8 masked key p)]
  rw [parseFrame_opcode8]
  exact congrArg (fun x => (x, ([] : List (List Nat))))
    (srvClose_setData s (encodeFrame true 8 masked key p ++ []) hcl)

theorem srvClose_sent (s : Conn) (hcl : s.closed = false) :
    (srvClose true s).sentEnvelopes = s.sentEnvelopes ++ [Envelope.close] := by
  simp [srvClose, hcl]

/-- C1: For every JSON-serializable message and every masking configuration
the codec accepts (unmasked, or masked with any 4-byte key), decoding the
frame bytes produced by the frame encoder for that message yields exactly
that message back, in particular at the boundary payload lengths 0, 1, 125,
126, 65535 and 65536.  The round trip does hold for the wire format itself:
the first conjunct shows the incremental decoder hands back exactly the
encoded payload for every masking configuration and every length up to
2^32, and the second that the repository's `sendMessage` agrees with the
wire-format encoder below 65536 bytes.  The code bug: at exactly 65536
bytes (third conjunct) `sendMessage` produces no frame at all - its third
branch calls `writeUInt16BE(data.length, 5)`, which rejects values above
65535 - so the claim fails on the repository encoder at the stated
boundary length 65536. -/
theorem c1_roundtrip_and_encoder_bug :
    (∀ (pe : List Nat → Option Env) (masked : Bool) (key p : List Nat),
        (masked = true → key.length = 4) → p.length < 4294967296 →
        (runData pe initConn (encodeFrame true 1 masked key p)).2 = [p]) ∧
    (∀ data : List Nat, data.length < 65536 →
        sendMessageBytes data = some (encodeFrame true 1 false [] data)) ∧
    sendMessageBytes (List.replicate 65536 48) = none := by
  refine ⟨?_, ?_, ?_⟩
  · intro pe masked key p hkey hlen
    rw [runData_one_text_frame pe initConn masked key p rfl rfl rfl hlen hkey]
    cases hpe : pe (initConn.payloadReceived ++ p) <;> simp [initConn]
  · intro data hlt
    unfold sendMessageBytes encodeFrame
    by_cases h1 : data.length < 126 <;> simp [h1, hlt]
  · unfold sendMessageBytes
    rw [if_neg (by rw [List.length_replicate]; omega),
      if_neg (by rw [List.length_replicate]; omega)]

theorem c1_witness :
    (runData (fun _ => some Env.other) initConn
      (encodeFrame true 1 true [1, 2, 3, 4] [5, 6, 7])).2 = [[5, 6, 7]] ∧
    sendMessageBytes [9] = some (encodeFrame true 1 false [] [9]) :=
  ⟨c1_roundtrip_and_encoder_bug.1 (fun _ => some Env.other) true [1, 2, 3, 4] [5, 6, 7]
      (fun _ => rfl) (by decide),
    c1_roundtrip_and_encoder_bug.2.1 [9] (by decide)⟩

/-- C9 counterexample: the claim says a FIN frame carrying an invalid data
opcode terminates the connection.  Feeding the decoder the concrete bytes
`[131, 1, 99]` (FIN, opcode 3 - not a data opcode this protocol accepts -
one payload byte) followed by `[129, 1, 104]` (FIN, opcode text, one
payload byte) leaves the connection open, sends no Close envelope, and
processing continues: the second frame is still decoded and handed to the
envelope layer.  The offending frame was skipped, not fatal. -/
theorem c9_counterexample :
    (runData (fun _ => some Env.other) initConn [131, 1, 99, 129, 1, 104]).1.closed = false ∧
    (runData (fun _ => some Env.other) initConn [131, 1, 99, 129, 1, 104]).1.sentEnvelopes = [] ∧
    (runData (fun _ => some Env.other) initConn [131, 1, 99, 129, 1, 104]).2 = [[104]] :=
  ⟨rfl, rfl, rfl⟩

/-- C9 (amended): on a ServerConnection, an accumulated payload that fails
envelope (JSON) parsing - delivered by a FIN frame with the text opcode 1 -
terminates the connection (it is closed and a Close envelope is sent), and
a close opcode (8) likewise terminates it; but a FIN frame carrying any
other opcode is NOT fatal: its payload is discarded and processing
continues with the connection open. -/
theorem c9_amended (pe : List Nat → Option Env) (s : Conn) (o : Nat) (p : List Nat)
    (hcl : s.closed = false) (hcr : s.crashed = false) (hbuf : s.dataReceived = [])
    (hlen : p.length < 4294967296) :
    (pe (s.payloadReceived ++ p) = none →
      (runData pe s (encodeFrame true 1 false [] p)).1.closed = true ∧
      (runData pe s (encodeFrame true 1 false [] p)).1.sentEnvelopes =
        s.sentEnvelopes ++ [Envelope.close]) ∧
    (o < 16 → o ≠ 1 → o ≠ 8 →
      (runData pe s (encodeFrame true o false [] p)).1.closed = false ∧
      (runData pe s (encodeFrame true o false [] p)).1.crashed = false ∧
      (runData pe s (encodeFrame true o false [] p)).1.payloadReceived = [] ∧
      (runData pe s (encodeFrame true o false [] p)).2 = []) ∧
    ((runData pe s (encodeFrame true 8 false [] p)).1.closed = true ∧
      (runData pe s (encodeFrame true 8 false [] p)).1.sentEnvelopes =
        s.sentEnvelopes ++ [Envelope.close]) := by
  refine ⟨?_, ?_, ?_⟩
  · intro hpe
    rw [runData_one_text_frame pe s false [] p hcl hcr hbuf hlen (by simp), hpe]
    dsimp only
    constructor
    · exact srvClose_closed true _
    · exact srvClose_sent _ hcl
  · intro ho ho1 ho8
    rw [runData_one_skipped_frame pe s o p hcl hcr hbuf hlen ho ho1 ho8]
    exact ⟨hcl, hcr, rfl, rfl⟩
  · rw [runData_one_close_frame pe s false [] p hcl hcr hbuf]
    exact ⟨srvClose_closed true s, srvClose_sent s hcl⟩

theorem c9_amended_witness :
    ((runData (fun _ => none) initConn (encodeFrame true 1 false [] [104])).1.closed = true ∧
      (runData (fun _ => none) initConn (encodeFrame true 1 false [] [104])).1.sentEnvelopes =
        initConn.sentEnvelopes ++ [Envelope.close]) ∧
    ((runData (fun _ => none) initConn (encodeFrame true 3 false [] [104])).1.closed = false ∧
      (runData (fun _ => none) initConn (encodeFrame true 3 false [] [104])).2 = []) :=
  have h := c9_amended (fun _ => none) initConn 3 [104] rfl rfl rfl (by decide)
  ⟨h.1 rfl, (h.2.1 (by decide) (by decide) (by decide)).1,
    (h.2.1 (by decide) (by decide) (by decide)).2.2.2⟩

/-- C3: For every outgoing message, the server-side frame encoder produces
the three-tier length encoding.  The first two tiers hold: payload lengths
0-125 are stored directly in the second header byte, and lengths 126-65535
are signaled by the marker 126 followed by the 16-bit big-endian length.
The code bug is the third tier: instead of the marker 127 followed by the
length as a 64-bit big-endian integer, `sendMessage` calls
`writeUInt16BE(data.length, 5)`, which rejects every value above 65535 with
a bounds error (and would in any case leave bytes 3, 4, 7 and 8 of the
length field unwritten), so no frame with a 64-bit length field is ever
produced (third conjunct). -/
theorem c3_three_tier_length_encoding :
    (∀ data : List Nat, data.length < 126 →
        sendMessageBytes data = some (129 :: data.length :: data)) ∧
    (∀ data : List Nat, 126 ≤ data.length → data.length < 65536 →
        sendMessageBytes data = some (129 :: 126 :: (be16 data.length ++ data))) ∧
    sendMessageBytes (List.replicate 70000 32) = none := by
  refine ⟨?_, ?_, ?_⟩
  · intro data h
    simp [sendMessageBytes, h]
  · intro data h1 h2
    unfold sendMessageBytes
    rw [if_neg (by omega), if_pos h2]
    simp
  · unfold sendMessageBytes
    rw [if_neg (by rw [List.length_replicate]; omega),
      if_neg (by rw [List.length_replicate]; omega)]

theorem c3_witness :
    sendMessageBytes [7] = some (129 :: 1 :: [7]) ∧
    sendMessageBytes (List.replicate 126 0) =
      some (129 :: 126 :: (be16 (List.replicate 126 0).length ++ List.replicate 126 0)) :=
  ⟨c3_three_tier_length_encoding.1 [7] (by decide),
    c3_three_tier_length_encoding.2.1 (List.replicate 126 0) (by simp) (by simp)⟩

/-- C4: the claim says that whenever the decoder reads a length code of 127,
the payload length it computes equals the unsigned big-endian integer value
of the following 8 bytes, for every possible value of those 8 bytes.  The
code computes `(readUInt32BE(2) << 32) + readUInt32BE(6)`, and in the
source environment `<< 32` shifts by zero after coercing to a signed 32-bit
integer, so the high word is added instead of scaled by 2^32.  At the
concrete header whose 8 length bytes are 00 00 00 01 00 00 00 00 (a 2^32
byte payload), the code computes 1 while the 64-bit big-endian value is
4294967296. -/
theorem c4_length127_bug :
    payloadLength127 [129, 255, 0, 0, 0, 1, 0, 0, 0, 0] = 1 ∧
    be64at [129, 255, 0, 0, 0, 1, 0, 0, 0, 0] 2 = 4294967296 ∧
    payloadLength127 [129, 255, 0, 0, 0, 1, 0, 0, 0, 0] ≠
      (be64at [129, 255, 0, 0, 0, 1, 0, 0, 0, 0] 2 : Int) :=
  ⟨by decide, by decide, by decide⟩

set_option maxRecDepth 10000

/-- C5: the handshake accept token equals
base64(SHA-1(client_key_string ++ "258EAFA5-E914-47DA-95CA-C5AB0DC85B11"))
for every client key (second conjunct, which also exhibits purity: the
token is a function of the key alone), and the key
"dGhlIHNhbXBsZSBub25jZQ==" yields exactly the token
"s3pPLMBiTxaQ9kYGzzhZRbK+xOo=" (first conjunct, verified by kernel
computation of the embedded SHA-1 and base64). -/
theorem c5_handshake_accept_token :
    acceptToken "dGhlIHNhbXBsZSBub25jZQ==" = "s3pPLMBiTxaQ9kYGzzhZRbK+xOo=" ∧
    ∀ key : String, acceptToken key =
      String.mk (base64Encode (sha1 (strBytes (key ++ wsGuid)))) :=
  ⟨by decide, fun _ => rfl⟩

/-- C6: client-session `send(type, payload)` with a string type and a
JSON-serializable payload: if the session is permanently closed the call
fails synchronously; if it is temporarily disconnected the call returns
without error and leaves the session state completely unchanged - so the
message is never transmitted, even after a later reconnect - and after the
reconnect completes (`onSocketOpen`) the outgoing queue is empty and the
only envelope transmitted is the `reconnect` envelope; otherwise the
`message` envelope is enqueued and the queue flushed (transmitted
immediately when the transport is OPEN). -/
theorem c6_client_send (s : ClientState) (mt : String) (m : Json) (rd : Json) :
    (s.permanentlyClosed = true →
      clientSend s mt m = .error "Attempted to transmit after the connection has been closed") ∧
    (s.permanentlyClosed = false → s.temporarilyDisconnected = true →
      clientSend s mt m = .ok s ∧
      (onSocketOpen s rd).outgoingQueue = [] ∧
      (onSocketOpen s rd).sent = s.sent ++
        [Envelope.reconnect (if s.reconnectHandlerSet then rd else Json.null)] ∧
      (Envelope.message mt m ∉ s.sent → Envelope.message mt m ∉ (onSocketOpen s rd).sent)) ∧
    (s.permanentlyClosed = false → s.temporarilyDisconnected = false →
      clientSend s mt m =
        .ok (clientFlush { s with outgoingQueue := s.outgoingQueue ++ [Envelope.message mt m] }) ∧
      (s.readyState = 1 →
        clientSend s mt m = .ok { s with
          sent := s.sent ++ (s.outgoingQueue ++ [Envelope.message mt m]), outgoingQueue := [] })) := by
  refine ⟨?_, ?_, ?_⟩
  · intro h
    unfold clientSend
    rw [if_pos h]
  · intro hcl htmp
    have hopen : (onSocketOpen s rd).outgoingQueue = [] ∧
        (onSocketOpen s rd).sent = s.sent ++
          [Envelope.reconnect (if s.reconnectHandlerSet then rd else Json.null)] := by
      unfold onSocketOpen
      rw [if_pos (show ({ s with readyState := 1 } : ClientState).temporarilyDisconnected = true
        from htmp)]
      unfold clientFlush
      rw [if_neg (by simp [hcl]), if_pos rfl]
      exact ⟨rfl, rfl⟩
    refine ⟨?_, hopen.1, hopen.2, ?_⟩
    · unfold clientSend
      rw [if_neg (by simp [hcl]), if_pos htmp]
    · intro hnot
      rw [hopen.2]
      simp [hnot]
  · intro hcl htmp
    constructor
    · unfold clientSend
      rw [if_neg (by simp [hcl]), if_neg (by simp [htmp])]
    · intro hrs
      unfold clientSend
      rw [if_neg (by simp [hcl]), if_neg (by simp [htmp])]
      unfold clientFlush
      rw [if_neg (by simp [hcl, htmp]), if_pos (show ({ s with outgoingQueue :=
        s.outgoingQueue ++ [Envelope.message mt m] } : ClientState).readyState = 1 from hrs)]

theorem c6_witness :
    clientSend ⟨true, false, 1, [], [], [], false, false, false, 0, 0⟩ "a" Json.null =
      .error "Attempted to transmit after the connection has been closed" ∧
    clientSend ⟨false, true, 1, [], [], [], false, false, false, 0, 0⟩ "a" Json.null =
      .ok ⟨false, true, 1, [], [], [], false, false, false, 0, 0⟩ ∧
    (onSocketOpen ⟨false, true, 1, [], [], [], false, false, false, 0, 0⟩ Json.null).outgoingQueue
      = [] ∧
    clientSend ⟨false, false, 1, [], [], [], false, false, false, 0, 0⟩ "a" Json.null =
      .ok ⟨false, false, 1, [], [Envelope.message "a" Json.null], [], false, false, false, 0, 0⟩ :=
  have h1 := c6_client_send ⟨true, false, 1, [], [], [], false, false, false, 0, 0⟩
    "a" Json.null Json.null
  have h2 := c6_client_send ⟨false, true, 1, [], [], [], false, false, false, 0, 0⟩
    "a" Json.null Json.null
  have h3 := c6_client_send ⟨false, false, 1, [], [], [], false, false, false, 0, 0⟩
    "a" Json.null Json.null
  ⟨h1.1 rfl, (h2.2.1 rfl rfl).1, (h2.2.1 rfl rfl).2.1, ((h3.2.2 rfl rfl).2 rfl)⟩

theorem foldl_dispatch_started (envs : List Env) (s : Conn) (h : s.started = true) :
    (envs.foldl dispatchEnv s).startCalls = s.startCalls ∧
    (envs.foldl dispatchEnv s).started = true := by
  induction envs generalizing s with
  | nil => exact ⟨rfl, h⟩
  | cons e rest ih =>
    have h1 : (dispatchEnv s e).started = true := by
      cases e <;> simp only [dispatchEnv] <;> (try split_ifs) <;> simp_all
    have h2 : (dispatchEnv s e).startCalls = s.startCalls := by
      cases e <;> simp only [dispatchEnv] <;> (try split_ifs) <;> simp_all
    rw [List.foldl_cons]
    obtain ⟨ha, hb⟩ := ih (dispatchEnv s e) h1
    exact ⟨ha.trans h2, hb⟩

theorem foldl_dispatch_startCalls (envs : List Env) (s : Conn) (h : s.started = false) :
    (envs.foldl dispatchEnv s).startCalls = s.startCalls ++ (firstStart envs).toList := by
  induction envs generalizing s with
  | nil => simp [firstStart]
  | cons e rest ih =>
    cases e with
    | connect =>
      rw [List.foldl_cons]
      rw [show dispatchEnv s Env.connect =
        { s with started := true, startCalls := s.startCalls ++ [Json.null] } from by
          simp [dispatchEnv, h]]
      rw [(foldl_dispatch_started rest _ rfl).1]
      simp [firstStart]
    | reconnect rd =>
      rw [List.foldl_cons]
      rw [show dispatchEnv s (Env.reconnect rd) =
        { s with started := true, startCalls := s.startCalls ++ [rd] } from by
          simp [dispatchEnv, h]]
      rw [(foldl_dispatch_started rest _ rfl).1]
      simp [firstStart]
    | message mt msg =>
      rw [List.foldl_cons]
      have hs : (dispatchEnv s (Env.message mt msg)).started = false := by
        simp only [dispatchEnv]
        split_ifs <;> exact h
      have hc : (dispatchEnv s (Env.message mt msg)).startCalls = s.startCalls := by
        simp only [dispatchEnv]
        split_ifs <;> rfl
      rw [ih _ hs, hc]
      simp [firstStart]
    | other =>
      rw [List.foldl_cons]
      show (rest.foldl dispatchEnv s).startCalls = _
      rw [ih s h]
      simp [firstStart]

/-- C7: on every ServerConnection, the first complete envelope of type
Connect or Reconnect invokes the application connection handler exactly
once, passing the attached reconnect_data (null for Connect); every
subsequent Connect or Reconnect envelope on the same connection is
ignored.  Over any sequence of dispatched envelopes from a fresh
connection, the transcript of `start` invocations is exactly the value
carried by the first Connect/Reconnect (or empty if none), hence never
longer than one. -/
theorem c7_first_envelope_starts_once (envs : List Env) :
    (envs.foldl dispatchEnv initConn).startCalls = (firstStart envs).toList ∧
    (envs.foldl dispatchEnv initConn).startCalls.length ≤ 1 := by
  have h := foldl_dispatch_startCalls envs initConn rfl
  rw [show initConn.startCalls = [] from rfl, List.nil_append] at h
  refine ⟨h, ?_⟩
  rw [h]
  cases firstStart envs <;> simp

theorem clientClose_perm (s : ClientState) : (clientClose s).permanentlyClosed = true := by
  unfold clientClose
  split_ifs <;> first | assumption | rfl

theorem clientClose_fix (s : ClientState) (h : s.permanentlyClosed = true) :
    clientClose s = s := by
  unfold clientClose
  rw [if_pos h]

theorem clientClose_iterate (s : ClientState) (n : Nat) (h : 1 ≤ n) :
    clientClose^[n] s = clientClose s := by
  induction n with
  | zero => omega
  | succ k ih =>
    cases k with
    | zero => simp
    | succ k2 =>
      rw [Function.iterate_succ_apply', ih (by omega)]
      exact clientClose_fix _ (clientClose_perm s)

theorem srvClose_fix (b : Bool) (s : Conn) (h : s.closed = true) : srvClose b s = s := by
  unfold srvClose
  rw [if_pos h]

theorem srvFold_closed (bs : List Bool) (s : Conn) (h : s.closed = true) :
    bs.foldl (fun st b => srvClose b st) s = s := by
  induction bs generalizing s with
  | nil => rfl
  | cons b rest ih =>
    rw [List.foldl_cons, srvClose_fix b s h]
    exact ih s h

/-- C8: closing a session a second time is a no-op on both sides.  For the
client's `close()` (first conjunct) and the server's `close(true)` /
`close(false)` in any mixture (second conjunct), the registered close
callback is invoked exactly once over the session's lifetime no matter how
many times close is called, and any send after the first close fails
synchronously. -/
theorem c8_idempotent_close (s : ClientState) (t : Conn) (n : Nat) (bs : List Bool)
    (mt : String) (m : Json) :
    (s.permanentlyClosed = false → s.closeHandlerSet = true → 1 ≤ n →
      (clientClose^[n] s).closeCbCalls = s.closeCbCalls + 1 ∧
      clientSend (clientClose^[n] s) mt m =
        .error "Attempted to transmit after the connection has been closed") ∧
    (t.closed = false → t.closeHandlerSet = true → bs ≠ [] →
      (bs.foldl (fun st b => srvClose b st) t).closeCbCalls = t.closeCbCalls + 1 ∧
      srvSend (bs.foldl (fun st b => srvClose b st) t) mt m =
        .error "Attempted to transmit after the connection has been closed") := by
  constructor
  · intro hcl hset hn
    rw [clientClose_iterate s n hn]
    constructor
    · unfold clientClose
      rw [if_neg (by simp [hcl])]
      simp [hset]
    · unfold clientSend
      rw [if_pos (clientClose_perm s)]
  · intro hcl hset hbs
    rcases bs with _ | ⟨b, bs⟩
    · exact absurd rfl hbs
    · rw [List.foldl_cons, srvFold_closed bs _ (srvClose_closed b t)]
      constructor
      · unfold srvClose
        rw [if_neg (by simp [hcl])]
        simp [hset]
      · unfold srvSend
        rw [if_pos (srvClose_closed b t)]

theorem c8_witness :
    (clientClose^[2] ⟨false, false, 1, [], [], [], false, false, true, 0, 0⟩).closeCbCalls = 1 ∧
    (([true, false] : List Bool).foldl (fun st b => srvClose b st)
      { initConn with closeHandlerSet := true }).closeCbCalls = 1 :=
  have h := c8_idempotent_close ⟨false, false, 1, [], [], [], false, false, true, 0, 0⟩
    { initConn with closeHandlerSet := true } 2 [true, false] "a" Json.null
  ⟨(h.1 rfl rfl (by decide)).1, (h.2 rfl rfl (by decide)).1⟩

/-- C10 counterexample: the claim says every handler-registration call on a
permanently closed client session is rejected, including `close(handler)`
in its registration form.  On the concrete permanently closed session below,
`close` called with a handler argument succeeds and installs the handler:
the source performs no permanently-closed check on that path (unlike
`receive`, `disconnect` and `reconnect`). -/
theorem c10_counterexample :
    clientCloseReg ⟨true, false, 3, [], [], [], false, false, false, 1, 0⟩ true =
      .ok ⟨true, false, 3, [], [], [], false, false, true, 1, 0⟩ := rfl

/-- C10 (amended): on a permanently closed client session, `receive`,
`disconnect` and `reconnect` are rejected synchronously, but
`close(handler)` in its registration form is NOT rejected: it succeeds and
replaces the close callback. -/
theorem c10_amended (s : ClientState) (t : String) (reg : Bool)
    (h : s.permanentlyClosed = true) :
    clientReceive s t reg =
      .error "Attempted to set message handler after the connection has been closed" ∧
    clientDisconnectReg s reg =
      .error "Attempted to set disconnect handler after the connection has been closed" ∧
    clientReconnectReg s reg =
      .error "Attempted to set reconnect handler after the connection has been closed" ∧
    clientCloseReg s reg = .ok { s with closeHandlerSet := reg } := by
  refine ⟨?_, ?_, ?_, rfl⟩ <;>
    simp [clientReceive, clientDisconnectReg, clientReconnectReg, h]

theorem c10_amended_witness :
    clientReceive ⟨true, false, 3, [], [], [], false, false, false, 1, 0⟩ "a" true =
      .error "Attempted to set message handler after the connection has been closed" ∧
    clientCloseReg ⟨true, false, 3, [], [], [], false, false, false, 1, 0⟩ false =
      .ok ⟨true, false, 3, [], [], [], false, false, false, 1, 0⟩ :=
  have h := c10_amended ⟨true, false, 3, [], [], [], false, false, false, 1, 0⟩ "a" false rfl
  ⟨(c10_amended ⟨true, false, 3, [], [], [], false, false, false, 1, 0⟩ "a" true rfl).1, h.2.2.2⟩
